/-
Verification of the simulation and metrics engine of the
Python-based-Backtesting-Engine repository.

The definitions below are shallow embeddings of the Python source:
  * `execute_backtest`   from src/backtest/backtest_engine.py  (BacktestEngine)
  * `simulate_trading`   from src/main_backtesting_engine.py   (BacktestingEngine)
  * `buy_condition` / `sell_condition` / the Signal/Position loop
                         from src/main_backtesting_engine.py   (generate_signals)
  * `rsi_macd_signals`   from src/strategies/rsi_macd_strategy.py (generate_signals)
  * `win_rate` / `win_loss_ratio` from src/report/metrics.py   (calculate_metrics)
  * `rsi`                from src/main_backtesting_engine.py   (TechnicalIndicators.rsi)

Python float arithmetic is modelled over ℚ; where IEEE special values are
essential (the RSI division) an explicit extended-rational type `IEEEQ` with
IEEE-754 division/addition rules is used.  Python `int(...)` truncation is
`ratTrunc`, and a float division with a zero denominator is modelled as the
`Except.error "ZeroDivisionError"` outcome, exactly where CPython would raise.
-/
import Mathlib

/-! ## BacktestEngine (src/backtest/backtest_engine.py) -/

/-- Python `int(q)`: truncation toward zero. -/
def ratTrunc (q : ℚ) : ℤ := if q < 0 then ⌈q⌉ else ⌊q⌋

inductive TradeType where
  | buy
  | sell
deriving DecidableEq, Repr

/-- One entry of `self.trades` (dict with keys date/type/price/shares/value and,
for sells, profit_loss).  The pandas index of the bar is modelled as `idx`. -/
structure Trade where
  idx : ℕ
  type : TradeType
  price : ℚ
  shares : ℤ
  value : ℚ
  profit_loss : Option ℚ
deriving DecidableEq, Repr

/-- The mutable instance fields of `BacktestEngine` set by `reset`, plus the
two output accumulators (`trades`, `portfolio_value`). -/
structure BTState where
  capital : ℚ
  position : ℤ
  entry_price : ℚ
  trades : List Trade
  portfolio_value : List ℚ
deriving DecidableEq, Repr

/-- One row of the `data_with_signals` frame that `execute_backtest` consumes. -/
structure SigRow where
  close : ℚ
  buy_signal : Bool
  sell_signal : Bool
deriving DecidableEq, Repr

/-- `BacktestEngine.reset` with `initial_capital = cap`. -/
def initState (cap : ℚ) : BTState := ⟨cap, 0, 0, [], []⟩

/-- One iteration of the `for index, row in df.iterrows()` loop of
`BacktestEngine.execute_backtest`, with commission rate `c` and bar index `i`.
The portfolio value is recorded before the signal processing, exactly as in
the source.  A buy at `close * (1 + c) = 0` is the ZeroDivisionError path. -/
def btStep (c : ℚ) (i : ℕ) (s : BTState) (row : SigRow) : Except String BTState :=
  let pvs : List ℚ := s.portfolio_value ++ [s.capital + s.position * row.close]
  if row.buy_signal = true ∧ s.position = 0 then
    if row.close * (1 + c) = 0 then Except.error "ZeroDivisionError"
    else
      let shares : ℤ := ratTrunc (s.capital / (row.close * (1 + c)))
      if 0 < shares then
        let cost : ℚ := (shares : ℚ) * row.close * (1 + c)
        Except.ok ⟨s.capital - cost, shares, row.close,
          s.trades ++ [⟨i, TradeType.buy, row.close, shares, cost, none⟩], pvs⟩
      else Except.ok ⟨s.capital, s.position, s.entry_price, s.trades, pvs⟩
  else if row.sell_signal = true ∧ 0 < s.position then
    let proceeds : ℚ := (s.position : ℚ) * row.close * (1 - c)
    Except.ok ⟨s.capital + proceeds, 0, 0,
      s.trades ++ [⟨i, TradeType.sell, row.close, s.position, proceeds,
        some (proceeds - (s.position : ℚ) * s.entry_price * (1 + c))⟩], pvs⟩
  else Except.ok ⟨s.capital, s.position, s.entry_price, s.trades, pvs⟩

/-- The loop of `execute_backtest`, instrumented to also return the sequence of
engine states entering each bar (the trace).  The engine output itself is the
final state; see `execute_backtest`. -/
def btTrace (c : ℚ) : ℕ → BTState → List SigRow → Except String (List BTState × BTState)
  | _, s, [] => Except.ok ([], s)
  | i, s, row :: rest =>
    match btStep c i s row with
    | Except.error e => Except.error e
    | Except.ok s2 =>
      match btTrace c (i + 1) s2 rest with
      | Except.error e => Except.error e
      | Except.ok (states, sfin) => Except.ok (s :: states, sfin)

/-- `BacktestEngine.execute_backtest`: reset, run the loop, return the final
state (whose `portfolio_value` and `trades` fields are the returned
portfolio DataFrame and trades DataFrame). -/
def execute_backtest (cap c : ℚ) (rows : List SigRow) : Except String BTState :=
  (btTrace c 0 (initState cap) rows).map Prod.snd

/-- Number of BUY entries of a trade log. -/
def countBuy (ts : List Trade) : ℕ := ts.countP fun tr => decide (tr.type = TradeType.buy)

/-- Number of SELL entries of a trade log. -/
def countSell (ts : List Trade) : ℕ := ts.countP fun tr => decide (tr.type = TradeType.sell)

/-- The ledger invariant maintained by the engine loop: nonnegative cash,
nonnegative position, trade counts matching the position parity, and all
trade indices below the current bar index. -/
def EngineInv (i : ℕ) (s : BTState) : Prop :=
  0 ≤ s.capital ∧ 0 ≤ s.position ∧
  countBuy s.trades = countSell s.trades + (if 0 < s.position then 1 else 0) ∧
  ∀ tr ∈ s.trades, tr.idx < i

/-! ## BacktestingEngine.simulate_trading (src/main_backtesting_engine.py) -/

/-- One row of `self.data` as read by `simulate_trading`: the close price and
the `Signal` column (1 buy, -1 sell, 0 none). -/
structure MRow where
  close : ℚ
  signal : ℤ
deriving DecidableEq, Repr

/-- One entry of `self.trades` of `BacktestingEngine` (date/action/price/shares). -/
structure MTrade where
  idx : ℕ
  action : TradeType
  price : ℚ
  shares : ℤ
deriving DecidableEq, Repr

/-- The loop-carried state of `simulate_trading`: `cash`, `shares`,
`self.trades` and `self.portfolio_value`. -/
structure MState where
  cash : ℚ
  shares : ℤ
  trades : List MTrade
  portfolio_value : List ℚ
deriving DecidableEq, Repr

/-- One iteration of the `simulate_trading` loop.  Note the buy branch is
guarded by `signal == 1 and cash > 0` (not by `shares == 0`), and the
portfolio value is appended after the trade processing. -/
def mStep (i : ℕ) (s : MState) (row : MRow) : Except String MState :=
  if row.signal = 1 ∧ 0 < s.cash then
    if row.close = 0 then Except.error "ZeroDivisionError"
    else
      let shares_to_buy : ℤ := ratTrunc (s.cash / row.close)
      let s2 : MState :=
        if 0 < shares_to_buy then
          ⟨s.cash - shares_to_buy * row.close, s.shares + shares_to_buy,
            s.trades ++ [⟨i, TradeType.buy, row.close, shares_to_buy⟩], s.portfolio_value⟩
        else s
      Except.ok ⟨s2.cash, s2.shares, s2.trades,
        s2.portfolio_value ++ [s2.cash + s2.shares * row.close]⟩
  else if row.signal = -1 ∧ 0 < s.shares then
    let s2 : MState := ⟨s.cash + s.shares * row.close, 0,
      s.trades ++ [⟨i, TradeType.sell, row.close, s.shares⟩], s.portfolio_value⟩
    Except.ok ⟨s2.cash, s2.shares, s2.trades,
      s2.portfolio_value ++ [s2.cash + s2.shares * row.close]⟩
  else Except.ok ⟨s.cash, s.shares, s.trades,
    s.portfolio_value ++ [s.cash + s.shares * row.close]⟩

/-- The loop of `simulate_trading`. -/
def mRun : ℕ → MState → List MRow → Except String MState
  | _, s, [] => Except.ok s
  | i, s, row :: rest =>
    match mStep i s row with
    | Except.error e => Except.error e
    | Except.ok s2 => mRun (i + 1) s2 rest

/-- `BacktestingEngine.simulate_trading` with `initial_capital = cap`. -/
def simulate_trading (cap : ℚ) (rows : List MRow) : Except String MState :=
  mRun 0 ⟨cap, 0, [], []⟩ rows

/-! ## PerformanceMetrics.calculate_metrics (src/report/metrics.py)

A closed-trade log is modelled as the `profit_loss` column of the trades
DataFrame: `some pnl` for SELL rows, `none` for BUY rows (whose cell is NaN,
so every pandas comparison on it is False). -/

/-- `len(winning_trades)`: rows with `profit_loss > 0`. -/
def winning_trades (pnls : List (Option ℚ)) : ℕ :=
  pnls.countP fun p => match p with | some q => decide (0 < q) | none => false

/-- `len(losing_trades)`: rows with `profit_loss < 0` (strict). -/
def losing_trades (pnls : List (Option ℚ)) : ℕ :=
  pnls.countP fun p => match p with | some q => decide (q < 0) | none => false

/-- metrics.py line 27: `win_rate = len(winning)/len(losing) if len(losing) > 0 else 0`. -/
def win_rate (pnls : List (Option ℚ)) : ℚ :=
  if 0 < losing_trades pnls then (winning_trades pnls : ℚ) / (losing_trades pnls : ℚ) else 0

/-- metrics.py line 28: `win_loss_ratio = len(winning)/max(len(losing), 1)`. -/
def win_loss_ratio (pnls : List (Option ℚ)) : ℚ :=
  (winning_trades pnls : ℚ) / (max (losing_trades pnls) 1 : ℕ)

/-- Modelled from the spec (for comparison with `win_rate`): losses are closed
trades with realized P&L ≤ 0, and `win_rate = wins/(wins+losses)`. -/
def spec_losing_trades (pnls : List (Option ℚ)) : ℕ :=
  pnls.countP fun p => match p with | some q => decide (q ≤ 0) | none => false

/-- Modelled from the spec (for comparison with `win_rate`):
`win_rate = wins/(wins+losses)` with losses the trades with P&L ≤ 0. -/
def spec_win_rate (pnls : List (Option ℚ)) : ℚ :=
  (winning_trades pnls : ℚ) / ((winning_trades pnls + spec_losing_trades pnls : ℕ) : ℚ)

/-! ## BacktestingEngine.generate_signals (src/main_backtesting_engine.py)

Indicator cells are `Option ℚ`: `none` models a pandas NaN (warm-up), and
every comparison against NaN is False, as in pandas. -/

/-- Pandas `a < b` on possibly-NaN cells. -/
def optLt (a b : Option ℚ) : Bool :=
  match a, b with | some x, some y => decide (x < y) | _, _ => false

/-- Pandas `a > b` on possibly-NaN cells. -/
def optGt (a b : Option ℚ) : Bool :=
  match a, b with | some x, some y => decide (y < x) | _, _ => false

/-- Pandas `a <= b` on possibly-NaN cells. -/
def optLe (a b : Option ℚ) : Bool :=
  match a, b with | some x, some y => decide (x ≤ y) | _, _ => false

/-- Pandas `a >= b` on possibly-NaN cells. -/
def optGe (a b : Option ℚ) : Bool :=
  match a, b with | some x, some y => decide (y ≤ x) | _, _ => false

inductive CombineLogic where
  | and
  | or
deriving DecidableEq, Repr

/-- The `strategy_params` dict consumed by `generate_signals`. -/
structure StrategyParams where
  use_rsi : Bool
  rsi_buy_threshold : ℚ
  rsi_sell_threshold : ℚ
  use_macd : Bool
  use_ma : Bool
  logic : CombineLogic
deriving DecidableEq, Repr

/-- One row of the indicator frame as read at index `i` by `generate_signals`. -/
structure IndRow where
  close : ℚ
  rsi_cell : Option ℚ
  macd : Option ℚ
  macd_signal : Option ℚ
  ma20 : Option ℚ
deriving DecidableEq, Repr

/-- `rsi_buy` of `generate_signals` (False when RSI is disabled). -/
def rsi_buy (p : StrategyParams) (cur : IndRow) : Bool :=
  if p.use_rsi then optLt cur.rsi_cell (some p.rsi_buy_threshold) else false

/-- `rsi_sell` of `generate_signals`. -/
def rsi_sell (p : StrategyParams) (cur : IndRow) : Bool :=
  if p.use_rsi then optGt cur.rsi_cell (some p.rsi_sell_threshold) else false

/-- `macd_crossover` of `generate_signals` (row `i-1` is `prev`). -/
def macd_crossover (p : StrategyParams) (prev cur : IndRow) : Bool :=
  if p.use_macd then optGt cur.macd cur.macd_signal && optLe prev.macd prev.macd_signal
  else false

/-- `macd_crossunder` of `generate_signals`. -/
def macd_crossunder (p : StrategyParams) (prev cur : IndRow) : Bool :=
  if p.use_macd then optLt cur.macd cur.macd_signal && optGe prev.macd prev.macd_signal
  else false

/-- `ma_buy` of `generate_signals`. -/
def ma_buy (p : StrategyParams) (cur : IndRow) : Bool :=
  if p.use_ma then optGt (some cur.close) cur.ma20 else false

/-- `ma_sell` of `generate_signals`. -/
def ma_sell (p : StrategyParams) (cur : IndRow) : Bool :=
  if p.use_ma then optLt (some cur.close) cur.ma20 else false

/-- `buy_condition` of `generate_signals`: `all([...])` under AND logic with
disabled indicators contributing True, `any([...])` under OR logic with
disabled indicators contributing False. -/
def buy_condition (p : StrategyParams) (prev cur : IndRow) : Bool :=
  match p.logic with
  | CombineLogic.and =>
      (if p.use_rsi then rsi_buy p cur else true) &&
      (if p.use_macd then macd_crossover p prev cur else true) &&
      (if p.use_ma then ma_buy p cur else true)
  | CombineLogic.or =>
      (if p.use_rsi then rsi_buy p cur else false) ||
      (if p.use_macd then macd_crossover p prev cur else false) ||
      (if p.use_ma then ma_buy p cur else false)

/-- `sell_condition` of `generate_signals`: `any([...])` in both logic
branches (the source duplicates the same expression under AND and OR). -/
def sell_condition (p : StrategyParams) (prev cur : IndRow) : Bool :=
  match p.logic with
  | CombineLogic.and =>
      (if p.use_rsi then rsi_sell p cur else false) ||
      (if p.use_macd then macd_crossunder p prev cur else false) ||
      (if p.use_ma then ma_sell p cur else false)
  | CombineLogic.or =>
      (if p.use_rsi then rsi_sell p cur else false) ||
      (if p.use_macd then macd_crossunder p prev cur else false) ||
      (if p.use_ma then ma_sell p cur else false)

/-- The Position update of the `generate_signals` loop as a function of the
previous position and the (buy_condition, sell_condition) pair at the bar. -/
def nextPos (pos : ℤ) (cnd : Bool × Bool) : ℤ :=
  if cnd.1 = true ∧ pos = 0 then 1 else if cnd.2 = true ∧ pos = 1 then 0 else pos

/-- The Signal written by the `generate_signals` loop at a bar. -/
def sigOf (pos : ℤ) (cnd : Bool × Bool) : ℤ :=
  if cnd.1 = true ∧ pos = 0 then 1 else if cnd.2 = true ∧ pos = 1 then -1 else 0

/-- The body of the `for i in range(1, len(data))` loop of `generate_signals`,
carrying `current_position`. -/
def genAux (pos : ℤ) : List (Bool × Bool) → List (ℤ × ℤ)
  | [] => []
  | cnd :: rest => (sigOf pos cnd, nextPos pos cnd) :: genAux (nextPos pos cnd) rest

/-- `generate_signals` of the main engine, given the per-bar
(buy_condition, sell_condition) pairs: the (Signal, Position) columns.
Row 0 keeps the initialisation `Signal = 0, Position = 0` and its conditions
are never evaluated (the loop starts at `i = 1`). -/
def main_generate_signals : List (Bool × Bool) → List (ℤ × ℤ)
  | [] => []
  | _ :: rest => (0, 0) :: genAux 0 rest

/-! ## RSIMACDStrategy.generate_signals (src/strategies/rsi_macd_strategy.py)

The indicator columns (computed by the external `ta` library) are the input;
`none` is a NaN cell.  `shift(1)` at the first row reads NaN, modelled by a
previous row with all cells `none`. -/

/-- One row of the indicator frame of `RSIMACDStrategy`. -/
structure RMRow where
  rsi_cell : Option ℚ
  macd : Option ℚ
  macd_signal : Option ℚ
deriving DecidableEq, Repr

/-- The per-row signal pair of `RSIMACDStrategy.generate_signals`:
`buy_signal = (rsi < oversold) & macd_cross_above`,
`sell_signal = (rsi > overbought) | macd_cross_below`. -/
def rmStep (oversold overbought : ℚ) (prev cur : RMRow) : Bool × Bool :=
  let cross_above := optGt cur.macd cur.macd_signal && optLe prev.macd prev.macd_signal
  let cross_below := optLt cur.macd cur.macd_signal && optGe prev.macd prev.macd_signal
  (optLt cur.rsi_cell (some oversold) && cross_above,
   optGt cur.rsi_cell (some overbought) || cross_below)

/-- The body of `RSIMACDStrategy.generate_signals` over the rows, tracking the
shifted previous row. -/
def rmAux (oversold overbought : ℚ) (prev : RMRow) : List RMRow → List (Bool × Bool)
  | [] => []
  | cur :: rest => rmStep oversold overbought prev cur :: rmAux oversold overbought cur rest

/-- `RSIMACDStrategy.generate_signals`: the (buy_signal, sell_signal) columns.
The row before the first is all-NaN (`shift(1)`). -/
def rsi_macd_signals (oversold overbought : ℚ) (rows : List RMRow) : List (Bool × Bool) :=
  rmAux oversold overbought ⟨none, none, none⟩ rows

/-! ## TechnicalIndicators.rsi (src/main_backtesting_engine.py)

The pandas pipeline `delta = prices.diff()`,
`gain = delta.where(delta > 0, 0).rolling(window).mean()`,
`loss = (-delta.where(delta < 0, 0)).rolling(window).mean()`,
`rs = gain / loss`, `100 - 100 / (1 + rs)` is reproduced exactly, including
the IEEE-754 behaviour of the final three operations (a positive value
divided by 0.0 is +inf, `100 - 100/(1+inf) = 100.0`).  `IEEEQ` is the
extended-rational model of a Python float. -/

inductive IEEEQ where
  | num (q : ℚ)
  | posInf
  | negInf
  | nan
deriving DecidableEq, Repr

/-- IEEE-754 addition on extended rationals. -/
def eadd : IEEEQ → IEEEQ → IEEEQ
  | IEEEQ.nan, _ => IEEEQ.nan
  | _, IEEEQ.nan => IEEEQ.nan
  | IEEEQ.num a, IEEEQ.num b => IEEEQ.num (a + b)
  | IEEEQ.num _, IEEEQ.posInf => IEEEQ.posInf
  | IEEEQ.num _, IEEEQ.negInf => IEEEQ.negInf
  | IEEEQ.posInf, IEEEQ.num _ => IEEEQ.posInf
  | IEEEQ.negInf, IEEEQ.num _ => IEEEQ.negInf
  | IEEEQ.posInf, IEEEQ.posInf => IEEEQ.posInf
  | IEEEQ.negInf, IEEEQ.negInf => IEEEQ.negInf
  | IEEEQ.posInf, IEEEQ.negInf => IEEEQ.nan
  | IEEEQ.negInf, IEEEQ.posInf => IEEEQ.nan

/-- IEEE-754 negation on extended rationals. -/
def eneg : IEEEQ → IEEEQ
  | IEEEQ.nan => IEEEQ.nan
  | IEEEQ.num a => IEEEQ.num (-a)
  | IEEEQ.posInf => IEEEQ.negInf
  | IEEEQ.negInf => IEEEQ.posInf

/-- IEEE-754 subtraction on extended rationals. -/
def esub (a b : IEEEQ) : IEEEQ := eadd a (eneg b)

/-- IEEE-754 division on extended rationals (ℚ has no signed zero; the zero
denominator is treated as +0, which is the relevant case here: the rolling
means being divided are elementwise means of nonnegative series). -/
def ediv : IEEEQ → IEEEQ → IEEEQ
  | IEEEQ.nan, _ => IEEEQ.nan
  | _, IEEEQ.nan => IEEEQ.nan
  | IEEEQ.num a, IEEEQ.num b =>
      if b = 0 then
        if a = 0 then IEEEQ.nan else if 0 < a then IEEEQ.posInf else IEEEQ.negInf
      else IEEEQ.num (a / b)
  | IEEEQ.num _, IEEEQ.posInf => IEEEQ.num 0
  | IEEEQ.num _, IEEEQ.negInf => IEEEQ.num 0
  | IEEEQ.posInf, IEEEQ.num b => if 0 ≤ b then IEEEQ.posInf else IEEEQ.negInf
  | IEEEQ.negInf, IEEEQ.num b => if 0 ≤ b then IEEEQ.negInf else IEEEQ.posInf
  | IEEEQ.posInf, _ => IEEEQ.nan
  | IEEEQ.negInf, _ => IEEEQ.nan

/-- `delta.where(delta > 0, 0)`: the clipped positive deltas.  The NaN of
`diff()` at row 0 fails the `> 0` comparison and is replaced by 0. -/
def diffGains : List ℚ → List ℚ
  | [] => []
  | p :: ps => 0 :: List.zipWith (fun a b => if 0 < b - a then b - a else 0) (p :: ps) ps

/-- `-delta.where(delta < 0, 0)`: the magnitudes of the clipped negative
deltas, with the row-0 NaN likewise replaced by 0. -/
def diffLosses : List ℚ → List ℚ
  | [] => []
  | p :: ps => 0 :: List.zipWith (fun a b => if b - a < 0 then -(b - a) else 0) (p :: ps) ps

/-- `xs.rolling(window=w).mean()`: `none` (NaN) before a full window of `w`
observations, else the trailing arithmetic mean. -/
def rollingMean (w : ℕ) (xs : List ℚ) : List (Option ℚ) :=
  (List.range xs.length).map fun t =>
    if w ≤ t + 1 then some (((xs.take (t + 1)).drop (t + 1 - w)).sum / (w : ℚ)) else none

/-- `TechnicalIndicators.rsi`: `100 - 100/(1 + gain/loss)` elementwise, NaN
where the rolling means are undefined. -/
def rsi (prices : List ℚ) (w : ℕ) : List IEEEQ :=
  List.zipWith
    (fun g l =>
      match g, l with
      | some gv, some lv =>
          esub (IEEEQ.num 100)
            (ediv (IEEEQ.num 100) (eadd (IEEEQ.num 1) (ediv (IEEEQ.num gv) (IEEEQ.num lv))))
      | _, _ => IEEEQ.nan)
    (rollingMean w (diffGains prices)) (rollingMean w (diffLosses prices))

/-! ## Helper lemmas about the BacktestEngine step -/

theorem ratTrunc_eq_floor {q : ℚ} (h : 0 ≤ q) : ratTrunc q = ⌊q⌋ := by
  simp [ratTrunc, not_lt.mpr h]

theorem floor_mul_le {cap x : ℚ} (hx : 0 < x) : (⌊cap / x⌋ : ℚ) * x ≤ cap := by
  have h1 : (⌊cap / x⌋ : ℚ) ≤ cap / x := Int.floor_le _
  calc (⌊cap / x⌋ : ℚ) * x ≤ cap / x * x := mul_le_mul_of_nonneg_right h1 (le_of_lt hx)
    _ = cap := div_mul_cancel₀ cap (ne_of_gt hx)

/-- Buy branch with at least one affordable share. -/
theorem btStep_buy (c : ℚ) (i : ℕ) (s : BTState) (row : SigRow)
    (hb : row.buy_signal = true) (hp : s.position = 0)
    (hx : ¬ row.close * (1 + c) = 0)
    (hsh : 0 < ratTrunc (s.capital / (row.close * (1 + c)))) :
    btStep c i s row = Except.ok
      ⟨s.capital - (ratTrunc (s.capital / (row.close * (1 + c))) : ℚ) * row.close * (1 + c),
       ratTrunc (s.capital / (row.close * (1 + c))), row.close,
       s.trades ++ [⟨i, TradeType.buy, row.close, ratTrunc (s.capital / (row.close * (1 + c))),
         (ratTrunc (s.capital / (row.close * (1 + c))) : ℚ) * row.close * (1 + c), none⟩],
       s.portfolio_value ++ [s.capital + s.position * row.close]⟩ := by
  simp only [btStep]
  rw [if_pos ⟨hb, hp⟩, if_neg hx, if_pos hsh]

/-- Buy branch with zero affordable shares: only the mark-to-market happens. -/
theorem btStep_buy_zero (c : ℚ) (i : ℕ) (s : BTState) (row : SigRow)
    (hb : row.buy_signal = true) (hp : s.position = 0)
    (hx : ¬ row.close * (1 + c) = 0)
    (hsh : ¬ 0 < ratTrunc (s.capital / (row.close * (1 + c)))) :
    btStep c i s row = Except.ok
      ⟨s.capital, s.position, s.entry_price, s.trades,
       s.portfolio_value ++ [s.capital + s.position * row.close]⟩ := by
  simp only [btStep]
  rw [if_pos ⟨hb, hp⟩, if_neg hx, if_neg hsh]

/-- Sell branch. -/
theorem btStep_sell (c : ℚ) (i : ℕ) (s : BTState) (row : SigRow)
    (hnb : ¬ (row.buy_signal = true ∧ s.position = 0))
    (hsell : row.sell_signal = true ∧ 0 < s.position) :
    btStep c i s row = Except.ok
      ⟨s.capital + (s.position : ℚ) * row.close * (1 - c), 0, 0,
       s.trades ++ [⟨i, TradeType.sell, row.close, s.position,
         (s.position : ℚ) * row.close * (1 - c),
         some ((s.position : ℚ) * row.close * (1 - c) -
           (s.position : ℚ) * s.entry_price * (1 + c))⟩],
       s.portfolio_value ++ [s.capital + s.position * row.close]⟩ := by
  simp only [btStep]
  rw [if_neg hnb, if_pos hsell]

/-- Any signal whose transition is not legal for the current state is a no-op
apart from the mark-to-market. -/
theorem btStep_noop (c : ℚ) (i : ℕ) (s : BTState) (row : SigRow)
    (hnb : ¬ (row.buy_signal = true ∧ s.position = 0))
    (hns : ¬ (row.sell_signal = true ∧ 0 < s.position)) :
    btStep c i s row = Except.ok
      ⟨s.capital, s.position, s.entry_price, s.trades,
       s.portfolio_value ++ [s.capital + s.position * row.close]⟩ := by
  simp only [btStep]
  rw [if_neg hnb, if_neg hns]

/-- One engine step succeeds, preserves the ledger invariant and records
exactly the mark-to-market of the entering state. -/
theorem btStep_spec {c : ℚ} (hc0 : 0 ≤ c) (hc1 : c ≤ 1) (i : ℕ) (s : BTState) (row : SigRow)
    (hclose : 0 < row.close) (hs : EngineInv i s) :
    ∃ s2, btStep c i s row = Except.ok s2 ∧ EngineInv (i + 1) s2 ∧
      s2.portfolio_value = s.portfolio_value ++ [s.capital + s.position * row.close] := by
  obtain ⟨hcap, hpos, hcnt, hidx⟩ := hs
  have hx : 0 < row.close * (1 + c) := by nlinarith
  have hxne : ¬ row.close * (1 + c) = 0 := ne_of_gt hx
  by_cases hb : row.buy_signal = true ∧ s.position = 0
  · have hq : 0 ≤ s.capital / (row.close * (1 + c)) := div_nonneg hcap (le_of_lt hx)
    have htr : ratTrunc (s.capital / (row.close * (1 + c))) =
        ⌊s.capital / (row.close * (1 + c))⌋ := ratTrunc_eq_floor hq
    by_cases hsh : 0 < ratTrunc (s.capital / (row.close * (1 + c)))
    · refine ⟨_, btStep_buy c i s row hb.1 hb.2 hxne hsh, ?_, rfl⟩
      refine ⟨?_, ?_, ?_, ?_⟩
      · have hle : (ratTrunc (s.capital / (row.close * (1 + c))) : ℚ) * (row.close * (1 + c)) ≤
            s.capital := by
          rw [htr]; exact floor_mul_le hx
        have : (ratTrunc (s.capital / (row.close * (1 + c))) : ℚ) * row.close * (1 + c) =
            (ratTrunc (s.capital / (row.close * (1 + c))) : ℚ) * (row.close * (1 + c)) := by ring
        simp only [this]
        linarith
      · exact le_of_lt (by exact_mod_cast hsh)
      · simp only [countBuy, countSell, List.countP_append, List.countP_cons, List.countP_nil]
        rw [hb.2] at hcnt
        simp only [countBuy, countSell] at hcnt
        simp [hcnt, hsh]
      · intro tr htr2
        rcases List.mem_append.mp htr2 with h | h
        · exact Nat.lt_succ_of_lt (hidx tr h)
        · simp at h; subst h; exact Nat.lt_succ_self i
    · exact ⟨_, btStep_buy_zero c i s row hb.1 hb.2 hxne hsh, ⟨hcap, hpos, hcnt,
        fun tr h => Nat.lt_succ_of_lt (hidx tr h)⟩, rfl⟩
  · by_cases hsell : row.sell_signal = true ∧ 0 < s.position
    · refine ⟨_, btStep_sell c i s row hb hsell, ?_, rfl⟩
      refine ⟨?_, le_refl 0, ?_, ?_⟩
      · have hpr : 0 ≤ (s.position : ℚ) * row.close * (1 - c) := by
          have h1 : (0 : ℚ) ≤ (s.position : ℚ) := by exact_mod_cast hpos
          have h2 : (0 : ℚ) ≤ 1 - c := by linarith
          positivity
        show 0 ≤ s.capital + (s.position : ℚ) * row.close * (1 - c)
        linarith
      · simp only [countBuy, countSell, List.countP_append, List.countP_cons, List.countP_nil]
        rw [if_pos hsell.2] at hcnt
        simp only [countBuy, countSell] at hcnt
        simp [hcnt]
      · intro tr htr2
        rcases List.mem_append.mp htr2 with h | h
        · exact Nat.lt_succ_of_lt (hidx tr h)
        · simp at h; subst h; exact Nat.lt_succ_self i
    · exact ⟨_, btStep_noop c i s row hb hsell, ⟨hcap, hpos, hcnt,
        fun tr h => Nat.lt_succ_of_lt (hidx tr h)⟩, rfl⟩

/-- The whole engine loop succeeds on positive closes, returns one state per
bar, keeps the ledger invariant at every bar, and records exactly the
mark-to-market values of the entering states. -/
theorem btTrace_spec {c : ℚ} (hc0 : 0 ≤ c) (hc1 : c ≤ 1) :
    ∀ (rows : List SigRow) (i : ℕ) (s : BTState),
      (∀ r ∈ rows, 0 < r.close) → EngineInv i s →
      ∃ states sfin, btTrace c i s rows = Except.ok (states, sfin) ∧
        states.length = rows.length ∧
        (∀ st ∈ states, 0 ≤ st.capital ∧ 0 ≤ st.position) ∧
        EngineInv (i + rows.length) sfin ∧
        sfin.portfolio_value = s.portfolio_value ++
          List.zipWith (fun st r => st.capital + (st.position : ℚ) * r.close) states rows := by
  intro rows
  induction rows with
  | nil =>
      intro i s _ hs
      exact ⟨[], s, rfl, rfl, by simp, by simpa using hs, by simp⟩
  | cons row rest ih =>
      intro i s hrows hs
      obtain ⟨s2, hstep, hinv2, hpv⟩ :=
        btStep_spec hc0 hc1 i s row (hrows row (List.mem_cons_self row rest)) hs
      obtain ⟨states, sfin, htr, hlen, hall, hfin, hfpv⟩ :=
        ih (i + 1) s2 (fun r hr => hrows r (List.mem_cons_of_mem row hr)) hinv2
      refine ⟨s :: states, sfin, ?_, by simp [hlen], ?_, ?_, ?_⟩
      · simp [btTrace, hstep, htr]
      · intro st hst
        rcases List.mem_cons.mp hst with h | h
        · subst h; exact ⟨hs.1, hs.2.1⟩
        · exact hall st h
      · have harith : i + (row :: rest).length = i + 1 + rest.length := by
          simp [List.length_cons]; omega
        rw [harith]; exact hfin
      · rw [hfpv, hpv]
        simp [List.append_assoc]

/-! ## Claim theorems -/

/-- C1: for every signal frame with positive close prices (and a commission
rate in [0,1] and nonnegative initial capital), `execute_backtest` succeeds,
records exactly one portfolio value per bar, each recorded portfolio value
equals cash plus shares held times that bar's close price (for the ledger
state at the moment of recording), and cash is never negative — at every bar
and at the end.  In particular every buy debits at most the cash on hand. -/
theorem c1_cash_conservation (cap c : ℚ) (rows : List SigRow)
    (hcap : 0 ≤ cap) (hc0 : 0 ≤ c) (hc1 : c ≤ 1)
    (hrows : ∀ r ∈ rows, 0 < r.close) :
    ∃ states sfin,
      btTrace c 0 (initState cap) rows = Except.ok (states, sfin) ∧
      execute_backtest cap c rows = Except.ok sfin ∧
      states.length = rows.length ∧
      sfin.portfolio_value =
        List.zipWith (fun st r => st.capital + (st.position : ℚ) * r.close) states rows ∧
      (∀ st ∈ states, 0 ≤ st.capital) ∧ 0 ≤ sfin.capital := by
  have hinv : EngineInv 0 (initState cap) := by
    refine ⟨hcap, ?_, ?_, ?_⟩ <;> simp [initState, countBuy, countSell]
  obtain ⟨states, sfin, h1, h2, h3, h4, h5⟩ :=
    btTrace_spec hc0 hc1 rows 0 (initState cap) hrows hinv
  exact ⟨states, sfin, h1, by simp [execute_backtest, h1, Except.map], h2,
    by simpa [initState] using h5, fun st hst => (h3 st hst).1, h4.1⟩

/-- Witness for C1 on a concrete two-bar frame (a buy then a sell). -/
theorem c1_cash_conservation_witness :
    (0 ≤ (10000 : ℚ)) ∧ (0 ≤ (1 / 1000 : ℚ)) ∧ ((1 / 1000 : ℚ) ≤ 1) ∧
    (∃ states sfin,
      btTrace (1 / 1000) 0 (initState 10000)
          [⟨100, true, false⟩, ⟨110, false, true⟩] = Except.ok (states, sfin) ∧
      execute_backtest 10000 (1 / 1000)
          [⟨100, true, false⟩, ⟨110, false, true⟩] = Except.ok sfin ∧
      0 ≤ sfin.capital) := by
  refine ⟨by norm_num, by norm_num, by norm_num, ?_⟩
  obtain ⟨states, sfin, h1, h2, h3, h4, h5, h6⟩ :=
    c1_cash_conservation 10000 (1 / 1000) [⟨100, true, false⟩, ⟨110, false, true⟩]
      (by norm_num) (by norm_num) (by norm_num)
      (by intro r hr; fin_cases hr <;> norm_num)
  exact ⟨states, sfin, h1, h2, h6⟩

/-- C2 (amended): `BacktestEngine.execute_backtest` maintains single-position
discipline for every signal frame: shares held are never negative (at every
bar and at the end), a signal whose transition is not legal for the current
state is silently skipped (a no-op apart from the mark-to-market, never an
error), and the position changes only when a buy signal is honored at
position 0 or a sell signal is honored at a positive position.  The duplicate
`BacktestingEngine.simulate_trading` does not have this property for every
frame (see the counterexample). -/
theorem c2_single_position (cap c : ℚ) (rows : List SigRow)
    (hcap : 0 ≤ cap) (hc0 : 0 ≤ c) (hc1 : c ≤ 1)
    (hrows : ∀ r ∈ rows, 0 < r.close) :
    (∃ states sfin,
      btTrace c 0 (initState cap) rows = Except.ok (states, sfin) ∧
      (∀ st ∈ states, 0 ≤ st.position) ∧ 0 ≤ sfin.position) ∧
    (∀ (i : ℕ) (s : BTState) (row : SigRow),
      ¬(row.buy_signal = true ∧ s.position = 0) →
      ¬(row.sell_signal = true ∧ 0 < s.position) →
      btStep c i s row = Except.ok
        ⟨s.capital, s.position, s.entry_price, s.trades,
         s.portfolio_value ++ [s.capital + s.position * row.close]⟩) ∧
    (∀ (i : ℕ) (s s2 : BTState) (row : SigRow),
      btStep c i s row = Except.ok s2 → s2.position ≠ s.position →
      (row.buy_signal = true ∧ s.position = 0 ∧ 0 < s2.position) ∨
      (row.sell_signal = true ∧ 0 < s.position ∧ s2.position = 0)) := by
  have hinv : EngineInv 0 (initState cap) := by
    refine ⟨hcap, ?_, ?_, ?_⟩ <;> simp [initState, countBuy, countSell]
  obtain ⟨states, sfin, h1, h2, h3, h4, h5⟩ :=
    btTrace_spec hc0 hc1 rows 0 (initState cap) hrows hinv
  refine ⟨⟨states, sfin, h1, fun st hst => (h3 st hst).2, h4.2.1⟩, ?_, ?_⟩
  · intro i s row hnb hns
    exact btStep_noop c i s row hnb hns
  · intro i s s2 row hok hne
    by_cases hb : row.buy_signal = true ∧ s.position = 0
    · by_cases hx : row.close * (1 + c) = 0
      · exfalso
        have : btStep c i s row = Except.error "ZeroDivisionError" := by
          simp only [btStep]
          rw [if_pos hb, if_pos hx]
        rw [this] at hok
        exact Except.noConfusion hok
      · by_cases hsh : 0 < ratTrunc (s.capital / (row.close * (1 + c)))
        · left
          rw [btStep_buy c i s row hb.1 hb.2 hx hsh] at hok
          have h2 := Except.ok.inj hok
          refine ⟨hb.1, hb.2, ?_⟩
          rw [← h2]
          exact hsh
        · exfalso
          rw [btStep_buy_zero c i s row hb.1 hb.2 hx hsh] at hok
          have h2 := Except.ok.inj hok
          exact hne (by rw [← h2])
    · by_cases hsell : row.sell_signal = true ∧ 0 < s.position
      · right
        rw [btStep_sell c i s row hb hsell] at hok
        have h2 := Except.ok.inj hok
        exact ⟨hsell.1, hsell.2, by rw [← h2]⟩
      · exfalso
        rw [btStep_noop c i s row hb hsell] at hok
        have h2 := Except.ok.inj hok
        exact hne (by rw [← h2])

/-- Witness for C2 on a concrete one-bar frame. -/
theorem c2_single_position_witness :
    (0 ≤ (100 : ℚ)) ∧ (0 ≤ (0 : ℚ)) ∧ ((0 : ℚ) ≤ 1) ∧
    (∃ states sfin,
      btTrace 0 0 (initState 100) [⟨10, true, false⟩] = Except.ok (states, sfin) ∧
      0 ≤ sfin.position) := by
  refine ⟨by norm_num, by norm_num, by norm_num, ?_⟩
  obtain ⟨⟨states, sfin, h1, h2, h3⟩, h4, h5⟩ :=
    c2_single_position 100 0 [⟨10, true, false⟩] (by norm_num) (by norm_num) (by norm_num)
      (by intro r hr; fin_cases hr <;> norm_num)
  exact ⟨states, sfin, h1, h3⟩

/-- Counterexample for C2 as stated: `BacktestingEngine.simulate_trading`
gates buys on `cash > 0` only, so a frame with two consecutive buy signals
makes it buy again while one share is already held — the second BUY trade is
executed with the position at 1, and the run ends holding 2 shares.  Single-
position discipline therefore does not hold for every signal frame. -/
theorem c2_counterexample :
    simulate_trading 150 [⟨100, 1⟩, ⟨30, 1⟩] =
      Except.ok ⟨20, 2, [⟨0, TradeType.buy, 100, 1⟩, ⟨1, TradeType.buy, 30, 1⟩], [150, 80]⟩ := by
  norm_num [simulate_trading, mRun, mStep, ratTrunc]

/-- C3: on an honored buy signal (buy signal with the position at 0, positive
close, nonnegative cash and commission), the engine computes
`shares = floor(cash / (price * (1 + commission)))`; if that is at least 1 it
debits cash by `shares * price * (1 + commission)`, records a BUY trade at
the bar's close price and moves to the LONG state (position = shares > 0);
with zero affordable shares it records no trade and the ledger is unchanged
(the state stays FLAT), only the mark-to-market is appended. -/
theorem c3_buy_sizing (c : ℚ) (i : ℕ) (s : BTState) (row : SigRow)
    (hb : row.buy_signal = true) (hp : s.position = 0)
    (hclose : 0 < row.close) (hcap : 0 ≤ s.capital) (hc0 : 0 ≤ c) :
    (1 ≤ ⌊s.capital / (row.close * (1 + c))⌋ →
      btStep c i s row = Except.ok
        ⟨s.capital - (⌊s.capital / (row.close * (1 + c))⌋ : ℚ) * row.close * (1 + c),
         ⌊s.capital / (row.close * (1 + c))⌋, row.close,
         s.trades ++ [⟨i, TradeType.buy, row.close, ⌊s.capital / (row.close * (1 + c))⌋,
           (⌊s.capital / (row.close * (1 + c))⌋ : ℚ) * row.close * (1 + c), none⟩],
         s.portfolio_value ++ [s.capital + s.position * row.close]⟩) ∧
    (⌊s.capital / (row.close * (1 + c))⌋ < 1 →
      btStep c i s row = Except.ok
        ⟨s.capital, s.position, s.entry_price, s.trades,
         s.portfolio_value ++ [s.capital + s.position * row.close]⟩) := by
  have hx : 0 < row.close * (1 + c) := by nlinarith
  have hxne : ¬ row.close * (1 + c) = 0 := ne_of_gt hx
  have hq : 0 ≤ s.capital / (row.close * (1 + c)) := div_nonneg hcap (le_of_lt hx)
  have htr : ratTrunc (s.capital / (row.close * (1 + c))) =
      ⌊s.capital / (row.close * (1 + c))⌋ := ratTrunc_eq_floor hq
  constructor
  · intro hge
    have hsh : 0 < ratTrunc (s.capital / (row.close * (1 + c))) := by omega
    rw [btStep_buy c i s row hb hp hxne hsh, htr]
  · intro hlt
    have hsh : ¬ 0 < ratTrunc (s.capital / (row.close * (1 + c))) := by omega
    rw [btStep_buy_zero c i s row hb hp hxne hsh]

/-- Witness for C3: with 10000 cash, price 100 and commission 1/1000 the
floored share count is 99. -/
theorem c3_buy_sizing_witness :
    ((⟨100, true, false⟩ : SigRow).buy_signal = true) ∧ ((initState 10000).position = 0) ∧
    (0 < (⟨100, true, false⟩ : SigRow).close) ∧ (0 ≤ (initState 10000).capital) ∧
    (0 ≤ (1 / 1000 : ℚ)) ∧
    ((1 ≤ ⌊(initState 10000).capital / ((⟨100, true, false⟩ : SigRow).close * (1 + 1 / 1000))⌋ →
      btStep (1 / 1000) 0 (initState 10000) ⟨100, true, false⟩ = Except.ok
        ⟨(initState 10000).capital -
           (⌊(initState 10000).capital /
              ((⟨100, true, false⟩ : SigRow).close * (1 + 1 / 1000))⌋ : ℚ) *
             (⟨100, true, false⟩ : SigRow).close * (1 + 1 / 1000),
         ⌊(initState 10000).capital / ((⟨100, true, false⟩ : SigRow).close * (1 + 1 / 1000))⌋,
         (⟨100, true, false⟩ : SigRow).close,
         (initState 10000).trades ++
           [⟨0, TradeType.buy, (⟨100, true, false⟩ : SigRow).close,
             ⌊(initState 10000).capital /
               ((⟨100, true, false⟩ : SigRow).close * (1 + 1 / 1000))⌋,
             (⌊(initState 10000).capital /
                ((⟨100, true, false⟩ : SigRow).close * (1 + 1 / 1000))⌋ : ℚ) *
               (⟨100, true, false⟩ : SigRow).close * (1 + 1 / 1000), none⟩],
         (initState 10000).portfolio_value ++
           [(initState 10000).capital +
             (initState 10000).position * (⟨100, true, false⟩ : SigRow).close]⟩) ∧
     (⌊(initState 10000).capital / ((⟨100, true, false⟩ : SigRow).close * (1 + 1 / 1000))⌋ < 1 →
      btStep (1 / 1000) 0 (initState 10000) ⟨100, true, false⟩ = Except.ok
        ⟨(initState 10000).capital, (initState 10000).position, (initState 10000).entry_price,
         (initState 10000).trades,
         (initState 10000).portfolio_value ++
           [(initState 10000).capital +
             (initState 10000).position * (⟨100, true, false⟩ : SigRow).close]⟩)) :=
  ⟨rfl, rfl, by norm_num, by norm_num [initState], by norm_num,
    c3_buy_sizing (1 / 1000) 0 (initState 10000) ⟨100, true, false⟩ rfl rfl
      (by norm_num) (by norm_num [initState]) (by norm_num)⟩

/-- C9: a run that ends with an open position (positive position after the
last bar) is not force-liquidated: the trade log contains exactly one more
BUY than SELL (the open position's entry has no matching exit appended after
the series ends), every trade in the log was recorded at some bar index of
the series (none after it), and the equity curve is exactly the per-bar
mark-to-market of the entering states — its final point marks the held
shares at the last close instead of crediting cash with their value. -/
theorem c9_no_forced_liquidation (cap c : ℚ) (rows : List SigRow)
    (states : List BTState) (sfin : BTState)
    (hcap : 0 ≤ cap) (hc0 : 0 ≤ c) (hc1 : c ≤ 1)
    (hrows : ∀ r ∈ rows, 0 < r.close)
    (hok : btTrace c 0 (initState cap) rows = Except.ok (states, sfin))
    (hpos : 0 < sfin.position) :
    countBuy sfin.trades = countSell sfin.trades + 1 ∧
    (∀ tr ∈ sfin.trades, tr.idx < rows.length) ∧
    sfin.portfolio_value.length = rows.length ∧
    sfin.portfolio_value =
      List.zipWith (fun st r => st.capital + (st.position : ℚ) * r.close) states rows := by
  have hinv : EngineInv 0 (initState cap) := by
    refine ⟨hcap, ?_, ?_, ?_⟩ <;> simp [initState, countBuy, countSell]
  obtain ⟨states2, sfin2, h1, h2, h3, h4, h5⟩ :=
    btTrace_spec hc0 hc1 rows 0 (initState cap) hrows hinv
  have heq : states2 = states ∧ sfin2 = sfin := by
    have h6 := h1.symm.trans hok
    simpa [Prod.ext_iff] using h6
  obtain ⟨rfl, rfl⟩ := heq
  have hpv : sfin2.portfolio_value =
      List.zipWith (fun st r => st.capital + (st.position : ℚ) * r.close) states2 rows := by
    simpa [initState] using h5
  refine ⟨?_, ?_, ?_, hpv⟩
  · have := h4.2.2.1
    rwa [if_pos hpos] at this
  · intro tr htr
    have := h4.2.2.2 tr htr
    omega
  · rw [hpv, List.length_zipWith, h2, min_self]

/-- Witness for C9: a one-bar frame whose buy is honored, so the run ends
LONG with 10 shares. -/
theorem c9_no_forced_liquidation_witness :
    (0 ≤ (100 : ℚ)) ∧ (0 ≤ (0 : ℚ)) ∧ ((0 : ℚ) ≤ 1) ∧
    (btTrace 0 0 (initState 100) [⟨10, true, false⟩] = Except.ok
      ([initState 100],
       ⟨0, 10, 10, [⟨0, TradeType.buy, 10, 10, 100, none⟩], [100]⟩)) ∧
    (0 < (⟨0, 10, 10, [⟨0, TradeType.buy, 10, 10, 100, none⟩], [100]⟩ : BTState).position) ∧
    (countBuy (⟨0, 10, 10, [⟨0, TradeType.buy, 10, 10, 100, none⟩], [100]⟩ : BTState).trades =
      countSell (⟨0, 10, 10, [⟨0, TradeType.buy, 10, 10, 100, none⟩], [100]⟩ : BTState).trades
        + 1) := by
  have hok : btTrace 0 0 (initState 100) [⟨10, true, false⟩] = Except.ok
      ([initState 100],
       ⟨0, 10, 10, [⟨0, TradeType.buy, 10, 10, 100, none⟩], [100]⟩) := by
    norm_num [btTrace, btStep, ratTrunc, initState]
  refine ⟨by norm_num, by norm_num, by norm_num, hok, by norm_num, ?_⟩
  exact (c9_no_forced_liquidation 100 0 [⟨10, true, false⟩] [initState 100]
      ⟨0, 10, 10, [⟨0, TradeType.buy, 10, 10, 100, none⟩], [100]⟩
      (by norm_num) (by norm_num) (by norm_num)
      (by intro r hr; fin_cases hr <;> norm_num) hok (by norm_num)).1

/-- C5: the code computes `win_rate = wins/losses` (with losses the trades
with P&L strictly below 0), not `wins/(wins+losses)` with losses the trades
with P&L ≤ 0 as the claim states.  On the log with one winning and one losing
trade the code reports a win rate of 1 (i.e. 100%) while the claimed formula
gives 1/2 (50%). -/
theorem c5_win_rate_bug :
    win_rate [some 1, some (-1)] = 1 ∧
    spec_win_rate [some 1, some (-1)] = 1 / 2 ∧
    ((1 : ℚ) ≠ 1 / 2) := by
  refine ⟨?_, ?_, by norm_num⟩ <;>
    norm_num [win_rate, spec_win_rate, winning_trades, losing_trades, spec_losing_trades,
      List.countP, List.countP.go]

/-- Counterexample for C6: with one winning trade and zero losing trades the
reported win/loss ratio is the plain finite value 1 — not an infinite
sentinel — and it is indistinguishable from the genuinely one-win-one-loss
log, which also reports 1. -/
theorem c6_counterexample :
    win_loss_ratio [some 5] = 1 ∧ win_loss_ratio [some 5, some (-5)] = 1 := by
  constructor <;>
    norm_num [win_loss_ratio, winning_trades, losing_trades, List.countP, List.countP.go]

/-- C6 (amended): the reported win/loss ratio is `wins / max(losses, 1)`:
it equals wins/losses when there is at least one losing trade, and equals the
win count when there are none (so it is 0 when there are no closed trades,
but it is the finite win count — not an infinite sentinel — when there are
wins and no losses). -/
theorem c6_win_loss_ratio :
    (∀ pnls : List (Option ℚ),
      win_loss_ratio pnls =
        if 0 < losing_trades pnls then (winning_trades pnls : ℚ) / (losing_trades pnls : ℚ)
        else (winning_trades pnls : ℚ)) ∧
    win_loss_ratio [] = 0 := by
  constructor
  · intro pnls
    unfold win_loss_ratio
    by_cases h : 0 < losing_trades pnls
    · rw [if_pos h, Nat.max_eq_left h]
    · rw [if_neg h]
      have h0 : losing_trades pnls = 0 := by omega
      rw [h0]
      norm_num
  · norm_num [win_loss_ratio, winning_trades, losing_trades, List.countP, List.countP.go]

/-- Counterexample for C7: an empty price series is not rejected with an
error — `execute_backtest` returns successfully with an empty equity curve
and an empty trade log. -/
theorem c7_counterexample :
    execute_backtest 10000 (1 / 1000) [] = Except.ok (initState 10000) ∧
    (initState 10000).portfolio_value = [] ∧ (initState 10000).trades = [] :=
  ⟨rfl, rfl, rfl⟩

/-- C7 (amended): the engine performs no up-front input validation: an empty
series is accepted and yields an empty equity curve and trade log with no
error, and a bar with a non-positive close price is accepted into the
simulation rather than rejected before it. -/
theorem c7_no_input_validation :
    (∀ cap c : ℚ, execute_backtest cap c [] = Except.ok (initState cap)) ∧
    (∀ cap c : ℚ, execute_backtest cap c [⟨-5, false, false⟩] =
      Except.ok ⟨cap, 0, 0, [], [cap]⟩) := by
  constructor
  · intro cap c; rfl
  · intro cap c
    simp [execute_backtest, btTrace, btStep, initState, Except.map]

/-- C4: under AND logic the buy condition holds iff every enabled indicator's
buy sub-condition holds (a disabled indicator contributing true); under OR
logic it holds iff some enabled sub-condition holds; and the sell condition
is the OR of the enabled sell sub-conditions regardless of the combine
logic (a disabled indicator contributing false). -/
theorem c4_combination (p : StrategyParams) (prev cur : IndRow) :
    (p.logic = CombineLogic.and →
      (buy_condition p prev cur = true ↔
        ((p.use_rsi = true → rsi_buy p cur = true) ∧
         (p.use_macd = true → macd_crossover p prev cur = true) ∧
         (p.use_ma = true → ma_buy p cur = true)))) ∧
    (p.logic = CombineLogic.or →
      (buy_condition p prev cur = true ↔
        ((p.use_rsi = true ∧ rsi_buy p cur = true) ∨
         (p.use_macd = true ∧ macd_crossover p prev cur = true) ∨
         (p.use_ma = true ∧ ma_buy p cur = true)))) ∧
    (sell_condition p prev cur = true ↔
      ((p.use_rsi = true ∧ rsi_sell p cur = true) ∨
       (p.use_macd = true ∧ macd_crossunder p prev cur = true) ∨
       (p.use_ma = true ∧ ma_sell p cur = true))) := by
  rcases p with ⟨ur, bthr, sthr, um, uma, lg⟩
  cases lg <;> cases ur <;> cases um <;> cases uma <;>
    simp [buy_condition, sell_condition, rsi_buy, rsi_sell, macd_crossover,
      macd_crossunder, ma_buy, ma_sell, and_assoc, or_assoc]

/-- Witness for C4: a concrete AND-logic configuration with RSI and MACD
enabled and the MA disabled. -/
theorem c4_combination_witness :
    buy_condition ⟨true, 30, 70, true, false, CombineLogic.and⟩
        ⟨100, none, some 1, some 2, none⟩ ⟨100, some 20, some 3, some 2, none⟩ = true ↔
      (((⟨true, 30, 70, true, false, CombineLogic.and⟩ : StrategyParams).use_rsi = true →
         rsi_buy ⟨true, 30, 70, true, false, CombineLogic.and⟩
           ⟨100, some 20, some 3, some 2, none⟩ = true) ∧
       ((⟨true, 30, 70, true, false, CombineLogic.and⟩ : StrategyParams).use_macd = true →
         macd_crossover ⟨true, 30, 70, true, false, CombineLogic.and⟩
           ⟨100, none, some 1, some 2, none⟩ ⟨100, some 20, some 3, some 2, none⟩ = true) ∧
       ((⟨true, 30, 70, true, false, CombineLogic.and⟩ : StrategyParams).use_ma = true →
         ma_buy ⟨true, 30, 70, true, false, CombineLogic.and⟩
           ⟨100, some 20, some 3, some 2, none⟩ = true)) :=
  (c4_combination ⟨true, 30, 70, true, false, CombineLogic.and⟩
    ⟨100, none, some 1, some 2, none⟩ ⟨100, some 20, some 3, some 2, none⟩).1 rfl

/-! ## Helper lemmas for the Signal/Position loop -/

theorem genAux_length (conds : List (Bool × Bool)) :
    ∀ pos, (genAux pos conds).length = conds.length := by
  induction conds with
  | nil => intro pos; rfl
  | cons cnd rest ih => intro pos; simp [genAux, ih]

theorem genAux_getD (conds : List (Bool × Bool)) :
    ∀ (pos : ℤ) (k : ℕ), k < conds.length →
      (genAux pos conds).getD k (0, 0) =
        (sigOf (List.foldl nextPos pos (conds.take k)) (conds.getD k (false, false)),
         nextPos (List.foldl nextPos pos (conds.take k)) (conds.getD k (false, false))) := by
  induction conds with
  | nil => intro pos k hk; simp at hk
  | cons cnd rest ih =>
      intro pos k hk
      cases k with
      | zero => simp [genAux]
      | succ k2 =>
          simp only [genAux, List.getD_cons_succ, List.take_succ_cons, List.foldl_cons]
          exact ih (nextPos pos cnd) k2 (by simpa using hk)

theorem foldl_nextPos_take_succ (conds : List (Bool × Bool)) :
    ∀ (pos : ℤ) (k : ℕ), k < conds.length →
      List.foldl nextPos pos (conds.take (k + 1)) =
        nextPos (List.foldl nextPos pos (conds.take k)) (conds.getD k (false, false)) := by
  induction conds with
  | nil => intro pos k hk; simp at hk
  | cons cnd rest ih =>
      intro pos k hk
      cases k with
      | zero => simp
      | succ k2 =>
          simp only [List.take_succ_cons, List.foldl_cons, List.getD_cons_succ]
          exact ih (nextPos pos cnd) k2 (by simpa using hk)

theorem sigOf_eq_one {pos : ℤ} {cnd : Bool × Bool} (h : sigOf pos cnd = 1) : pos = 0 := by
  unfold sigOf at h
  split_ifs at h with h1 h2
  all_goals simp_all

theorem sigOf_eq_neg_one {pos : ℤ} {cnd : Bool × Bool} (h : sigOf pos cnd = -1) : pos = 1 := by
  unfold sigOf at h
  split_ifs at h with h1 h2
  all_goals simp_all

/-- C8 (amended): in the main engine's `generate_signals`, the Position at a
bar is a pure function (`nextPos`) of the Position at the previous bar and
the conditions at the bar, the Signal at a bar is likewise the pure function
`sigOf` of the same two inputs, a buy Signal (+1) fires only when the
previous Position is 0 (FLAT), and a sell Signal (−1) fires only when the
previous Position is 1 (LONG).  (The modular `RSIMACDStrategy` has no such
gating; see the counterexample.) -/
theorem c8_signal_gating (conds : List (Bool × Bool)) (k : ℕ)
    (hk : k + 1 < conds.length) :
    ((main_generate_signals conds).getD (k + 1) (0, 0)).2 =
      nextPos ((main_generate_signals conds).getD k (0, 0)).2
        (conds.getD (k + 1) (false, false)) ∧
    ((main_generate_signals conds).getD (k + 1) (0, 0)).1 =
      sigOf ((main_generate_signals conds).getD k (0, 0)).2
        (conds.getD (k + 1) (false, false)) ∧
    (((main_generate_signals conds).getD (k + 1) (0, 0)).1 = 1 →
      ((main_generate_signals conds).getD k (0, 0)).2 = 0) ∧
    (((main_generate_signals conds).getD (k + 1) (0, 0)).1 = -1 →
      ((main_generate_signals conds).getD k (0, 0)).2 = 1) := by
  cases conds with
  | nil => simp at hk
  | cons cnd0 rest =>
      have hkr : k < rest.length := by simpa using hk
      have hout1 : (main_generate_signals (cnd0 :: rest)).getD (k + 1) (0, 0) =
          (sigOf (List.foldl nextPos 0 (rest.take k)) (rest.getD k (false, false)),
           nextPos (List.foldl nextPos 0 (rest.take k)) (rest.getD k (false, false))) := by
        simp only [main_generate_signals, List.getD_cons_succ]
        exact genAux_getD rest 0 k hkr
      have hout0 : ((main_generate_signals (cnd0 :: rest)).getD k (0, 0)).2 =
          List.foldl nextPos 0 (rest.take k) := by
        cases k with
        | zero => simp [main_generate_signals]
        | succ k2 =>
            have hk2 : k2 < rest.length := by omega
            simp only [main_generate_signals, List.getD_cons_succ]
            rw [genAux_getD rest 0 k2 hk2]
            exact (foldl_nextPos_take_succ rest 0 k2 hk2).symm
      have hcnd : (cnd0 :: rest).getD (k + 1) (false, false) = rest.getD k (false, false) :=
        List.getD_cons_succ
      rw [hout1, hcnd, hout0]
      refine ⟨rfl, rfl, ?_, ?_⟩
      · intro h1; exact sigOf_eq_one h1
      · intro h1; exact sigOf_eq_neg_one h1

/-- Witness for C8 on a concrete condition list: at bar 1 the buy condition
fires from Position 0. -/
theorem c8_signal_gating_witness :
    (1 + 1 < ([(false, false), (true, false), (false, true)] : List (Bool × Bool)).length) ∧
    (((main_generate_signals [(false, false), (true, false), (false, true)]).getD 2 (0, 0)).2 =
      nextPos ((main_generate_signals
          [(false, false), (true, false), (false, true)]).getD 1 (0, 0)).2
        (([(false, false), (true, false), (false, true)] :
            List (Bool × Bool)).getD 2 (false, false))) ∧
    (((main_generate_signals [(false, false), (true, false), (false, true)]).getD 2 (0, 0)).1 =
      sigOf ((main_generate_signals
          [(false, false), (true, false), (false, true)]).getD 1 (0, 0)).2
        (([(false, false), (true, false), (false, true)] :
            List (Bool × Bool)).getD 2 (false, false))) := by
  have h := c8_signal_gating [(false, false), (true, false), (false, true)] 1 (by decide)
  exact ⟨by decide, h.1, h.2.1⟩

/-- Counterexample for C8 as stated: `RSIMACDStrategy.generate_signals` emits
raw, ungated signals.  On a one-bar frame with RSI 80 the sell_signal is true
at the very first bar, where the position state of the engine's state machine
is necessarily FLAT (the engine's entering position at bar 0 is 0 and the
sell is skipped as illegal), contradicting "sell_signal is true only when the
position state is LONG". -/
theorem c8_counterexample :
    rsi_macd_signals 30 70 [⟨some 80, some 0, some 0⟩] = [(false, true)] ∧
    btTrace 0 0 (initState 100) [⟨100, false, true⟩] =
      Except.ok ([initState 100], ⟨100, 0, 0, [], [100]⟩) ∧
    (initState 100).position = 0 := by
  refine ⟨?_, ?_, rfl⟩
  · norm_num [rsi_macd_signals, rmAux, rmStep, optLt, optGt, optLe, optGe]
  · norm_num [btTrace, btStep, initState]

/-- C10: whenever, at some index past warm-up, the rolling mean of the clipped
negative deltas is zero (no losses in the trailing window) while the rolling
mean of the clipped positive deltas is positive, `rsi` returns exactly the
finite value 100 at that index — not an undefined (NaN) or infinite value —
because `gain/0 = +inf` and `100 - 100/(1 + inf) = 100` under the IEEE
semantics of the pandas pipeline. -/
theorem c10_rsi_zero_loss (prices : List ℚ) (w t : ℕ) (g : ℚ)
    (hg : (rollingMean w (diffGains prices)).get? t = some (some g))
    (hgpos : 0 < g)
    (hl : (rollingMean w (diffLosses prices)).get? t = some (some 0)) :
    (rsi prices w).get? t = some (IEEEQ.num 100) := by
  unfold rsi
  rw [List.get?_zipWith_eq_some]
  refine ⟨some g, some 0, hg, hl, ?_⟩
  have hgne : g ≠ 0 := ne_of_gt hgpos
  simp [ediv, eadd, esub, eneg, hgne, hgpos]

/-- Witness for C10: prices 1,2,3 with window 2 — at index 2 the trailing
gain mean is 1 and the trailing loss mean is 0, and the RSI is exactly 100. -/
theorem c10_rsi_zero_loss_witness :
    ((rollingMean 2 (diffGains [1, 2, 3])).get? 2 = some (some 1)) ∧
    ((0 : ℚ) < 1) ∧
    ((rollingMean 2 (diffLosses [1, 2, 3])).get? 2 = some (some 0)) ∧
    ((rsi [1, 2, 3] 2).get? 2 = some (IEEEQ.num 100)) := by
  have hg : (rollingMean 2 (diffGains [1, 2, 3])).get? 2 = some (some 1) := by
    norm_num [rollingMean, diffGains, List.range_succ]
  have hl : (rollingMean 2 (diffLosses [1, 2, 3])).get? 2 = some (some 0) := by
    norm_num [rollingMean, diffLosses, List.range_succ]
  exact ⟨hg, by norm_num, hl, c10_rsi_zero_loss [1, 2, 3] 2 2 1 hg (by norm_num) hl⟩
